import Mathlib

/-!
Verification of the WebSocket-over-custom-scheme prototype
(`src/prototypes/06-websocket-scheme/main.cpp`).

The development shallowly embeds the C++ protocol core:

* `WsFrame` with its codec `WsFrame.encode` / `WsFrame.decode`
  (RFC 6455 framing; bytes are modelled as `Nat`, machine `size_t`/`uint64_t`
  arithmetic is modelled with explicit `% 2 ^ 64` where the source computes
  in fixed-width integers);
* `FrameQueue` with `push`, `close`, `reset`, `wait_pop`
  (the blocking wait is modelled as the state transition the call performs
  once the condition-variable wait resolves against the current state, which
  is exact for the single-consumer, serialized-session discipline the
  program uses);
* the inbound `binary_message` handler (`on_binary_message`);
* the two modes of `websocket_server_thread`
  (`scriptedSession` for `--test` mode, `interactiveSession` for echo mode).
-/

set_option maxHeartbeats 1000000
set_option maxRecDepth 10000

/-- WebSocket frame, mirroring `struct WsFrame`.  The opcode is kept as the
underlying numeric 4-bit value (the C++ enum is backed by `uint8_t` and is
populated by `static_cast` from `data[0] & 0x0F`, so any 4-bit value can
occur).  Field defaults mirror the C++ member initializers
(`fin{true}`, `opcode{WsOpcode::TEXT}`). -/
structure WsFrame where
  fin : Bool := true
  opcode : Nat := 0x1
  payload : List Nat := []
  deriving DecidableEq

namespace WsFrame

/-- Length field bytes produced by `WsFrame::encode`: the three-tier
encoding (7-bit inline, 126 + 16-bit big-endian, 127 + 64-bit big-endian,
the 64-bit loop `for i = 7 down to 0` unrolled). -/
def encodeLen (n : Nat) : List Nat :=
  if n ≤ 125 then [n]
  else if n ≤ 65535 then [126, (n >>> 8) &&& 0xFF, n &&& 0xFF]
  else [127, (n >>> 56) &&& 0xFF, (n >>> 48) &&& 0xFF, (n >>> 40) &&& 0xFF,
        (n >>> 32) &&& 0xFF, (n >>> 24) &&& 0xFF, (n >>> 16) &&& 0xFF,
        (n >>> 8) &&& 0xFF, n &&& 0xFF]

/-- Embedding of `WsFrame::encode` (server → client, MASK bit 0):
byte 0 is `(fin ? 0x80 : 0) | opcode`, then the length bytes, then the
payload unmodified. -/
def encode (f : WsFrame) : List Nat :=
  ((if f.fin then 0x80 else 0x00) ||| f.opcode) :: (encodeLen f.payload.length ++ f.payload)

/-- The 64-bit extended-length read of `WsFrame::decode`:
`length = (length << 8) | data[offset + i]` for `i = 0..7`, in `uint64_t`
arithmetic (the shift wraps modulo `2 ^ 64`). -/
def read64 (data : List Nat) (off : Nat) : Nat :=
  (List.range 8).foldl (fun acc i => ((acc <<< 8) % 2 ^ 64) ||| data.getD (off + i) 0) 0

/-- Tail of `WsFrame::decode` after the length field has been read: the
masking-key read, the payload-size check `size < offset + length` (computed
in `size_t`/`uint64_t` arithmetic, hence the `% 2 ^ 64`), the unmasking
copy `payload[i] = data[offset + i] ^ mask[i % 4]`, and the final
`offset += length`. -/
def decodeRest (data : List Nat) (fin : Bool) (opcode : Nat) (masked : Bool)
    (length off : Nat) : Option (WsFrame × Nat) :=
  if masked then
    if data.length < off + 4 then none
    else if data.length < ((off + 4) + length) % 2 ^ 64 then none
    else some (⟨fin, opcode,
      (List.range length).map fun i => data.getD ((off + 4) + i) 0 ^^^ data.getD (off + i % 4) 0⟩,
      ((off + 4) + length) % 2 ^ 64)
  else
    if data.length < (off + length) % 2 ^ 64 then none
    else some (⟨fin, opcode,
      (List.range length).map fun i => data.getD (off + i) 0 ^^^ 0⟩,
      (off + length) % 2 ^ 64)

/-- Embedding of `WsFrame::decode` (returns `none` exactly where the C++
returns `std::nullopt`, i.e. insufficient data; there is no separate
malformed result in the source).  Header parsing mirrors the source:
FIN and opcode from byte 0, MASK flag and 7-bit base length from byte 1,
then the two extended-length branches with their size checks. -/
def decode (data : List Nat) : Option (WsFrame × Nat) :=
  if data.length < 2 then none
  else
    let fin : Bool := data.getD 0 0 &&& 0x80 != 0
    let opcode := data.getD 0 0 &&& 0x0F
    let masked : Bool := data.getD 1 0 &&& 0x80 != 0
    let base := data.getD 1 0 &&& 0x7F
    if base = 126 then
      if data.length < 2 + 2 then none
      else decodeRest data fin opcode masked
        (((data.getD 2 0) <<< 8) ||| data.getD 3 0) 4
    else if base = 127 then
      if data.length < 2 + 8 then none
      else decodeRest data fin opcode masked (read64 data 2) 10
    else decodeRest data fin opcode masked base 2

end WsFrame

/-- State of the thread-safe `FrameQueue`: the pending deque plus the
closed flag.  A freshly constructed queue is empty and open (the C++
member initializers are an empty `std::deque` and `m_closed{false}`). -/
structure FrameQueue where
  queue : List WsFrame := []
  closed : Bool := false
  deriving DecidableEq

namespace FrameQueue

/-- Embedding of `FrameQueue::push`: append at the back; never blocks, never drops,
ignores the closed flag. -/
def push (q : FrameQueue) (f : WsFrame) : FrameQueue :=
  { q with queue := q.queue ++ [f] }

/-- Embedding of `FrameQueue::close`: set the closed flag; the pending deque is kept. -/
def close (q : FrameQueue) : FrameQueue :=
  { q with closed := true }

/-- Embedding of `FrameQueue::reset`: clear the deque and clear the closed flag. -/
def reset (_ : FrameQueue) : FrameQueue :=
  { queue := [], closed := false }

/-- Embedding of `FrameQueue::wait_pop`, modelled as the state transition the call
performs once its condition-variable wait resolves against the current
state (no producer runs during the wait in the serialized sessions the
claims describe).  `wait_for` returns false — a timeout — exactly when the
queue is empty and not closed; then an empty deque yields nothing;
otherwise the front element is removed and returned. -/
def wait_pop (q : FrameQueue) : Option WsFrame × FrameQueue :=
  if q.queue.isEmpty && !q.closed then (none, q)
  else
    match q.queue with
    | [] => (none, q)
    | f :: rest => (some f, { q with queue := rest })

/-- A single producer pushing a sequence of frames in order. -/
def pushAll (q : FrameQueue) (fs : List WsFrame) : FrameQueue :=
  fs.foldl push q

/-- Iterate `wait_pop`, collecting each call's result in order. -/
def popN (q : FrameQueue) : Nat → List (Option WsFrame) × FrameQueue
  | 0 => ([], q)
  | n + 1 =>
    let r := wait_pop q
    let rs := popN r.2 n
    (r.1 :: rs.1, rs.2)

end FrameQueue

/-- Embedding of the `binary_message` handler registered in `start`
(lines 566-574): decode the delivered buffer once; if a frame comes back,
push it to the queue; otherwise leave the queue unchanged. -/
def on_binary_message (q : FrameQueue) (data : List Nat) : FrameQueue :=
  match WsFrame.decode data with
  | some r => q.push r.1
  | none => q

/-- Byte payload of `std::format("ping-{}", i)`. -/
def pingTag (i : Nat) : List Nat :=
  ("ping-" ++ toString i).data.map Char.toNat

/-- The PING frame sent in round `i` of `--test` mode (designated
initializer `{.opcode = PING, .payload = ping_data}`, `fin` defaulted). -/
def pingFrame (i : Nat) : WsFrame :=
  { opcode := 0x9, payload := pingTag i }

/-- The CLOSE frame `{.opcode = CLOSE, .payload = {0x03, 0xE8}}`
(status 1000, big-endian). -/
def closeFrame : WsFrame :=
  { opcode := 0x8, payload := [0x03, 0xE8] }

/-- The `--test` loop of `websocket_server_thread` (source lines 224-263).
First `Nat` argument: rounds still to run (`PING_COUNT - i`); second: the
current round index `i`; then the current `g_test_result` and
`g_pongs_received`.  `responses` holds each round's `wait_pop` outcome; the
writer is assumed to stay valid (transport liveness is outside the model).
Returns the frames written inside the loop, the final `g_test_result` and
the final pong counter; the non-recursive branches are the `break`s. -/
def scriptedRun (responses : List (Option WsFrame)) :
    Nat → Nat → Nat → Nat → List WsFrame × Nat × Nat
  | 0, _, result, pongs => ([], result, pongs)
  | r + 1, i, result, pongs =>
    match responses.getD i none with
    | none => ([pingFrame i], 1, pongs)
    | some fr =>
      if fr.opcode ≠ 0xA then ([pingFrame i], 1, pongs)
      else if fr.payload ≠ pingTag i then ([pingFrame i], 1, pongs)
      else
        let result' := if i = 3 - 1 then 0 else result
        let res := scriptedRun responses r (i + 1) result' (pongs + 1)
        (pingFrame i :: res.1, res.2.1, res.2.2)

/-- The whole `--test` session body: `PING_COUNT = 3` rounds starting at
round 0 with `g_test_result{1}`, then the unconditional CLOSE frame written
after the loop (lines 266-267). -/
def scriptedSession (responses : List (Option WsFrame)) : List WsFrame × Nat × Nat :=
  let res := scriptedRun responses 3 0 1 0
  (res.1 ++ [closeFrame], res.2.1, res.2.2)

/-- Follows the spec's words: round `i` succeeds when a frame arrived, its
opcode is PONG, and its payload equals the tag just sent. -/
def goodResp (responses : List (Option WsFrame)) (i : Nat) : Bool :=
  match responses.getD i none with
  | none => false
  | some fr => fr.opcode == 0xA && fr.payload == pingTag i

/-- Follows the spec's words: the first failing scripted round, 3 when all
three rounds pass. -/
def firstBad (responses : List (Option WsFrame)) : Nat :=
  if goodResp responses 0 then
    if goodResp responses 1 then
      if goodResp responses 2 then 3 else 2
    else 1
  else 0

/-- The interactive-mode polling loop of `websocket_server_thread`
(lines 279-300).  Each entry of `polls` is one `wait_pop` outcome; `none`
(timeout) is skipped; TEXT/BINARY frames are re-encoded and written back;
PONG increments `g_pongs_received` with no write; CLOSE breaks; other
opcodes are ignored.  The list ending models `running`/`writer.valid()`
terminating the loop.  Returns the writes made inside the loop and the
pong count. -/
def interactiveLoop : List (Option WsFrame) → List (List Nat) × Nat
  | [] => ([], 0)
  | none :: rest => interactiveLoop rest
  | some fr :: rest =>
    if fr.opcode = 0x1 ∨ fr.opcode = 0x2 then
      (fr.encode :: (interactiveLoop rest).1, (interactiveLoop rest).2)
    else if fr.opcode = 0xA then
      ((interactiveLoop rest).1, (interactiveLoop rest).2 + 1)
    else if fr.opcode = 0x8 then ([], 0)
    else interactiveLoop rest

/-- The interactive session: the loop, then the unconditional CLOSE write
and `g_connected = false` (lines 302-305). -/
def interactiveSession (polls : List (Option WsFrame)) : List (List Nat) × Nat × Bool :=
  ((interactiveLoop polls).1 ++ [closeFrame.encode], (interactiveLoop polls).2, false)

/-- Follows the spec's words: the echo writes are the re-encodings of the
TEXT/BINARY frames popped before the first CLOSE. -/
def specEchoWrites : List (Option WsFrame) → List (List Nat)
  | [] => []
  | none :: rest => specEchoWrites rest
  | some fr :: rest =>
    if fr.opcode = 0x8 then []
    else if fr.opcode = 0x1 ∨ fr.opcode = 0x2 then fr.encode :: specEchoWrites rest
    else specEchoWrites rest

/-- Follows the spec's words: the pong counter counts the PONG frames
popped before the first CLOSE. -/
def specPongCount : List (Option WsFrame) → Nat
  | [] => 0
  | none :: rest => specPongCount rest
  | some fr :: rest =>
    if fr.opcode = 0x8 then 0
    else if fr.opcode = 0xA then specPongCount rest + 1
    else specPongCount rest

/-- The hostile buffer for C2: FIN+BINARY, unmasked, 127-marker, 64-bit
extended length `0xFFFFFFFFFFFFFFFF` — ten bytes in total, declaring a
payload of `2 ^ 64 - 1` bytes. -/
def overflowInput : List Nat :=
  [0x82, 0x7F, 0xFF, 0xFF, 0xFF, 0xFF, 0xFF, 0xFF, 0xFF, 0xFF]

namespace WsFrame

/-- Bridge lemma: masking with `0xFF` is reduction modulo 256. -/
lemma and_255_eq (n : Nat) : n &&& 255 = n % 256 := by
  have h := Nat.and_pow_two_sub_one_eq_mod n 8
  norm_num at h
  exact h

/-- Bridge lemma: masking with `0x7F` is reduction modulo 128. -/
lemma and_127_eq (n : Nat) : n &&& 127 = n % 128 := by
  have h := Nat.and_pow_two_sub_one_eq_mod n 7
  norm_num at h
  exact h

/-- Bridge lemma: a value below 128 has the `0x80` bit clear. -/
lemma and_128_eq_zero {n : Nat} (h : n < 128) : n &&& 128 = 0 := by
  have h' : n < 2 ^ 7 := by simpa using h
  have h2 := Nat.and_two_pow n 7
  rw [Nat.testBit_lt_two_pow h'] at h2
  simpa using h2

/-- Byte 0 of an encoded frame: the FIN test recovers the `fin` flag. -/
lemma byte0_fin (b : Bool) (opc : Nat) (h : opc < 16) :
    ((((if b then 0x80 else 0x00) ||| opc) &&& 0x80) != 0) = b := by
  cases b <;> interval_cases opc <;> decide

/-- Byte 0 of an encoded frame: the low nibble recovers the opcode. -/
lemma byte0_opcode (b : Bool) (opc : Nat) (h : opc < 16) :
    ((if b then 0x80 else 0x00) ||| opc) &&& 0x0F = opc := by
  cases b <;> interval_cases opc <;> decide

/-- Shift-or of a byte is positional arithmetic, modulo the `uint64_t` wrap. -/
lemma step64 (acc b : Nat) (hb : b < 256) :
    ((acc <<< 8) % 2 ^ 64) ||| b = acc % 2 ^ 56 * 256 + b := by
  have hb' : b < 2 ^ 8 := by simpa using hb
  have hsplit : (2 : Nat) ^ 64 = 2 ^ 56 * 2 ^ 8 := by norm_num
  rw [Nat.shiftLeft_eq, hsplit, Nat.mul_mod_mul_right, Nat.mul_comm (acc % 2 ^ 56),
    ← Nat.mul_add_lt_is_or hb', Nat.mul_comm]

/-- The 16-bit big-endian length bytes written by `encode` read back to the
original length. -/
lemma len16_roundtrip (n : Nat) (h : n ≤ 65535) :
    ((((n >>> 8) &&& 0xFF) <<< 8) ||| (n &&& 0xFF)) = n := by
  have hlt : n &&& 0xFF < 2 ^ 8 := by rw [and_255_eq]; omega
  rw [Nat.shiftLeft_eq, Nat.mul_comm, ← Nat.mul_add_lt_is_or hlt,
    Nat.shiftRight_eq_div_pow, and_255_eq, and_255_eq]
  norm_num
  omega

/-- The eight-step accumulation of `read64`, on a buffer whose bytes at
positions 2..9 are explicit, reduced to positional arithmetic. -/
lemma read64_cons (a b d7 d6 d5 d4 d3 d2 d1 d0 : Nat) (l : List Nat)
    (h7 : d7 < 256) (h6 : d6 < 256) (h5 : d5 < 256) (h4 : d4 < 256)
    (h3 : d3 < 256) (h2 : d2 < 256) (h1 : d1 < 256) (h0 : d0 < 256) :
    read64 (a :: b :: d7 :: d6 :: d5 :: d4 :: d3 :: d2 :: d1 :: d0 :: l) 2 =
      ((((((d7 * 256 + d6) * 256 + d5) * 256 + d4) * 256 + d3) * 256 + d2) * 256 + d1)
        * 256 + d0 := by
  have hu : read64 (a :: b :: d7 :: d6 :: d5 :: d4 :: d3 :: d2 :: d1 :: d0 :: l) 2 =
      (((((((((((((((0 <<< 8) % 2 ^ 64 ||| d7) <<< 8) % 2 ^ 64 ||| d6) <<< 8) % 2 ^ 64
        ||| d5) <<< 8) % 2 ^ 64 ||| d4) <<< 8) % 2 ^ 64 ||| d3) <<< 8) % 2 ^ 64
        ||| d2) <<< 8) % 2 ^ 64 ||| d1) <<< 8) % 2 ^ 64 ||| d0 := rfl
  rw [hu, step64 _ d7 h7, step64 _ d6 h6, step64 _ d5 h5, step64 _ d4 h4,
    step64 _ d3 h3, step64 _ d2 h2, step64 _ d1 h1, step64 _ d0 h0]
  omega

/-- Reading past two cons cells with an index offset of two. -/
lemma getD_cons2 (a b : Nat) (t : List Nat) (i : Nat) :
    (a :: b :: t).getD (2 + i) 0 = t.getD i 0 := by
  rw [Nat.add_comm]
  rfl

/-- Reading past four cons cells with an index offset of four. -/
lemma getD_cons4 (a b c d : Nat) (t : List Nat) (i : Nat) :
    (a :: b :: c :: d :: t).getD (4 + i) 0 = t.getD i 0 := by
  rw [Nat.add_comm]
  rfl

/-- Reading past ten cons cells with an index offset of ten. -/
lemma getD_cons10 (a b c d e g p q r s : Nat) (t : List Nat) (i : Nat) :
    (a :: b :: c :: d :: e :: g :: p :: q :: r :: s :: t).getD (10 + i) 0 = t.getD i 0 := by
  rw [Nat.add_comm]
  rfl

/-- An in-bounds default read from a concatenation reads the left part. -/
lemma getD_append_lt (l₁ l₂ : List Nat) (i : Nat) (h : i < l₁.length) :
    (l₁ ++ l₂).getD i 0 = l₁.getD i 0 := by
  simp [List.getD_eq_getElem?_getD, List.getElem?_append_left h]

/-- Reading every position of a list back, in order, reproduces the list. -/
lemma map_range_getD (l : List Nat) :
    (List.range l.length).map (fun i => l.getD i 0) = l := by
  induction l with
  | nil => rfl
  | cons x xs ih =>
    rw [List.length_cons, List.range_succ_eq_map, List.map_cons, List.map_map]
    have hcomp : ((fun i => (x :: xs).getD i 0) ∘ Nat.succ) = (fun i => xs.getD i 0) := by
      funext i
      simp
    rw [hcomp, ih]
    simp

/-- Reading back the first `payload.length` positions of `payload ++ rest`
reproduces `payload`. -/
lemma map_range_getD_append (payload rest : List Nat) :
    (List.range payload.length).map (fun i => (payload ++ rest).getD i 0) = payload := by
  have h : ∀ i ∈ List.range payload.length,
      (payload ++ rest).getD i 0 = payload.getD i 0 := by
    intro i hi
    exact getD_append_lt _ _ _ (by simpa using hi)
  rw [List.map_congr_left h, map_range_getD]

/-- Masking a value with `0xFF` always yields a byte. -/
lemma and_255_lt (x : Nat) : x &&& 255 < 256 := by
  rw [and_255_eq]
  omega

/-- Decoding a buffer that starts with an encoded frame parses exactly that
frame back (all fields) and consumes exactly the encoded length, regardless
of trailing bytes.  The opcode bound is the 4-bit range the wire format can
carry; the length bound says the encoded buffer is `size_t`-representable. -/
theorem decode_encode_append (f : WsFrame) (rest : List Nat) (hop : f.opcode < 16)
    (henc : (encode f).length < 2 ^ 64) :
    decode (encode f ++ rest) = some (f, (encode f).length) := by
  by_cases h125 : f.payload.length ≤ 125
  · have hshape : encode f ++ rest
        = ((if f.fin then 0x80 else 0x00) ||| f.opcode)
          :: f.payload.length :: (f.payload ++ rest) := by
      simp [encode, encodeLen, h125]
    have hlen2 : (encode f).length = 2 + f.payload.length := by
      simp [encode, encodeLen, h125]
      omega
    have g0 : (((if f.fin then 0x80 else 0x00) ||| f.opcode)
        :: f.payload.length :: (f.payload ++ rest)).getD 0 0
        = ((if f.fin then 0x80 else 0x00) ||| f.opcode) := rfl
    have g1 : (((if f.fin then 0x80 else 0x00) ||| f.opcode)
        :: f.payload.length :: (f.payload ++ rest)).getD 1 0 = f.payload.length := rfl
    have hb1 : f.payload.length &&& 0x7F = f.payload.length := by
      rw [and_127_eq]
      omega
    have hm : f.payload.length &&& 0x80 = 0 := and_128_eq_zero (by omega)
    have h126 : ¬ (f.payload.length = 126) := by omega
    have h127 : ¬ (f.payload.length = 127) := by omega
    have c1 : ¬ (List.length (((if f.fin then 0x80 else 0x00) ||| f.opcode)
        :: f.payload.length :: (f.payload ++ rest)) < 2) := by
      simp only [List.length_cons]
      omega
    have hmod : (2 + f.payload.length) % 2 ^ 64 = 2 + f.payload.length :=
      Nat.mod_eq_of_lt (by omega)
    have c2 : ¬ (List.length (((if f.fin then 0x80 else 0x00) ||| f.opcode)
        :: f.payload.length :: (f.payload ++ rest)) < 2 + f.payload.length) := by
      simp only [List.length_cons, List.length_append]
      omega
    rw [hshape, decode]
    simp only [g0, g1, hb1, hm, h126, h127, c1, ite_false, ite_true,
      byte0_fin f.fin f.opcode hop, byte0_opcode f.fin f.opcode hop, decodeRest,
      bne_self_eq_false, Bool.false_eq_true, hmod, c2, Nat.xor_zero, getD_cons2,
      map_range_getD_append, hlen2]
  · by_cases h65535 : f.payload.length ≤ 65535
    · have hshape : encode f ++ rest
          = ((if f.fin then 0x80 else 0x00) ||| f.opcode) :: (126 : Nat)
            :: ((f.payload.length >>> 8) &&& 0xFF) :: (f.payload.length &&& 0xFF)
            :: (f.payload ++ rest) := by
        simp [encode, encodeLen, h125, h65535]
      have hlen4 : (encode f).length = 4 + f.payload.length := by
        simp [encode, encodeLen, h125, h65535]
        omega
      have g0 : (((if f.fin then 0x80 else 0x00) ||| f.opcode) :: (126 : Nat)
          :: ((f.payload.length >>> 8) &&& 0xFF) :: (f.payload.length &&& 0xFF)
          :: (f.payload ++ rest)).getD 0 0
          = ((if f.fin then 0x80 else 0x00) ||| f.opcode) := rfl
      have g1 : (((if f.fin then 0x80 else 0x00) ||| f.opcode) :: (126 : Nat)
          :: ((f.payload.length >>> 8) &&& 0xFF) :: (f.payload.length &&& 0xFF)
          :: (f.payload ++ rest)).getD 1 0 = 126 := rfl
      have g2 : (((if f.fin then 0x80 else 0x00) ||| f.opcode) :: (126 : Nat)
          :: ((f.payload.length >>> 8) &&& 0xFF) :: (f.payload.length &&& 0xFF)
          :: (f.payload ++ rest)).getD 2 0 = (f.payload.length >>> 8) &&& 0xFF := rfl
      have g3 : (((if f.fin then 0x80 else 0x00) ||| f.opcode) :: (126 : Nat)
          :: ((f.payload.length >>> 8) &&& 0xFF) :: (f.payload.length &&& 0xFF)
          :: (f.payload ++ rest)).getD 3 0 = f.payload.length &&& 0xFF := rfl
      have c1 : ¬ (List.length (((if f.fin then 0x80 else 0x00) ||| f.opcode) :: (126 : Nat)
          :: ((f.payload.length >>> 8) &&& 0xFF) :: (f.payload.length &&& 0xFF)
          :: (f.payload ++ rest)) < 2) := by
        simp only [List.length_cons]
        omega
      have c2 : ¬ (List.length (((if f.fin then 0x80 else 0x00) ||| f.opcode) :: (126 : Nat)
          :: ((f.payload.length >>> 8) &&& 0xFF) :: (f.payload.length &&& 0xFF)
          :: (f.payload ++ rest)) < 2 + 2) := by
        simp only [List.length_cons]
        omega
      have hmod : (4 + f.payload.length) % 2 ^ 64 = 4 + f.payload.length :=
        Nat.mod_eq_of_lt (by omega)
      have c3 : ¬ (List.length (((if f.fin then 0x80 else 0x00) ||| f.opcode) :: (126 : Nat)
          :: ((f.payload.length >>> 8) &&& 0xFF) :: (f.payload.length &&& 0xFF)
          :: (f.payload ++ rest)) < 4 + f.payload.length) := by
        simp only [List.length_cons, List.length_append]
        omega
      have hb126 : (126 : Nat) &&& 127 = 126 := rfl
      have hm126 : (((126 : Nat) &&& 128) != 0) = false := rfl
      rw [hshape, decode]
      simp only [g0, g1, g2, g3, c1, hb126, hm126, ite_false, ite_true, eq_self_iff_true,
        byte0_fin f.fin f.opcode hop, byte0_opcode f.fin f.opcode hop, c2,
        len16_roundtrip f.payload.length h65535, decodeRest, bne_self_eq_false,
        Bool.false_eq_true, hmod, c3, Nat.xor_zero, getD_cons4,
        map_range_getD_append, hlen4]
    · have hshape : encode f ++ rest
          = ((if f.fin then 0x80 else 0x00) ||| f.opcode) :: (127 : Nat)
            :: ((f.payload.length >>> 56) &&& 0xFF) :: ((f.payload.length >>> 48) &&& 0xFF)
            :: ((f.payload.length >>> 40) &&& 0xFF) :: ((f.payload.length >>> 32) &&& 0xFF)
            :: ((f.payload.length >>> 24) &&& 0xFF) :: ((f.payload.length >>> 16) &&& 0xFF)
            :: ((f.payload.length >>> 8) &&& 0xFF) :: (f.payload.length &&& 0xFF)
            :: (f.payload ++ rest) := by
        simp [encode, encodeLen, h125, h65535]
      have hlen10 : (encode f).length = 10 + f.payload.length := by
        simp [encode, encodeLen, h125, h65535]
        omega
      have hn64 : f.payload.length < 2 ^ 64 := by omega
      have g0 : (((if f.fin then 0x80 else 0x00) ||| f.opcode) :: (127 : Nat)
          :: ((f.payload.length >>> 56) &&& 0xFF) :: ((f.payload.length >>> 48) &&& 0xFF)
          :: ((f.payload.length >>> 40) &&& 0xFF) :: ((f.payload.length >>> 32) &&& 0xFF)
          :: ((f.payload.length >>> 24) &&& 0xFF) :: ((f.payload.length >>> 16) &&& 0xFF)
          :: ((f.payload.length >>> 8) &&& 0xFF) :: (f.payload.length &&& 0xFF)
          :: (f.payload ++ rest)).getD 0 0
          = ((if f.fin then 0x80 else 0x00) ||| f.opcode) := rfl
      have g1 : (((if f.fin then 0x80 else 0x00) ||| f.opcode) :: (127 : Nat)
          :: ((f.payload.length >>> 56) &&& 0xFF) :: ((f.payload.length >>> 48) &&& 0xFF)
          :: ((f.payload.length >>> 40) &&& 0xFF) :: ((f.payload.length >>> 32) &&& 0xFF)
          :: ((f.payload.length >>> 24) &&& 0xFF) :: ((f.payload.length >>> 16) &&& 0xFF)
          :: ((f.payload.length >>> 8) &&& 0xFF) :: (f.payload.length &&& 0xFF)
          :: (f.payload ++ rest)).getD 1 0 = 127 := rfl
      have c1 : ¬ (List.length (((if f.fin then 0x80 else 0x00) ||| f.opcode) :: (127 : Nat)
          :: ((f.payload.length >>> 56) &&& 0xFF) :: ((f.payload.length >>> 48) &&& 0xFF)
          :: ((f.payload.length >>> 40) &&& 0xFF) :: ((f.payload.length >>> 32) &&& 0xFF)
          :: ((f.payload.length >>> 24) &&& 0xFF) :: ((f.payload.length >>> 16) &&& 0xFF)
          :: ((f.payload.length >>> 8) &&& 0xFF) :: (f.payload.length &&& 0xFF)
          :: (f.payload ++ rest)) < 2) := by
        simp only [List.length_cons]
        omega
      have c2 : ¬ (List.length (((if f.fin then 0x80 else 0x00) ||| f.opcode) :: (127 : Nat)
          :: ((f.payload.length >>> 56) &&& 0xFF) :: ((f.payload.length >>> 48) &&& 0xFF)
          :: ((f.payload.length >>> 40) &&& 0xFF) :: ((f.payload.length >>> 32) &&& 0xFF)
          :: ((f.payload.length >>> 24) &&& 0xFF) :: ((f.payload.length >>> 16) &&& 0xFF)
          :: ((f.payload.length >>> 8) &&& 0xFF) :: (f.payload.length &&& 0xFF)
          :: (f.payload ++ rest)) < 2 + 8) := by
        simp only [List.length_cons]
        omega
      have hread : read64 (((if f.fin then 0x80 else 0x00) ||| f.opcode) :: (127 : Nat)
          :: ((f.payload.length >>> 56) &&& 0xFF) :: ((f.payload.length >>> 48) &&& 0xFF)
          :: ((f.payload.length >>> 40) &&& 0xFF) :: ((f.payload.length >>> 32) &&& 0xFF)
          :: ((f.payload.length >>> 24) &&& 0xFF) :: ((f.payload.length >>> 16) &&& 0xFF)
          :: ((f.payload.length >>> 8) &&& 0xFF) :: (f.payload.length &&& 0xFF)
          :: (f.payload ++ rest)) 2 = f.payload.length := by
        rw [read64_cons _ _ _ _ _ _ _ _ _ _ _ (and_255_lt _) (and_255_lt _) (and_255_lt _)
          (and_255_lt _) (and_255_lt _) (and_255_lt _) (and_255_lt _) (and_255_lt _)]
        simp only [Nat.shiftRight_eq_div_pow, and_255_eq]
        norm_num
        omega
      have hmod : (10 + f.payload.length) % 2 ^ 64 = 10 + f.payload.length :=
        Nat.mod_eq_of_lt (by omega)
      have c3 : ¬ (List.length (((if f.fin then 0x80 else 0x00) ||| f.opcode) :: (127 : Nat)
          :: ((f.payload.length >>> 56) &&& 0xFF) :: ((f.payload.length >>> 48) &&& 0xFF)
          :: ((f.payload.length >>> 40) &&& 0xFF) :: ((f.payload.length >>> 32) &&& 0xFF)
          :: ((f.payload.length >>> 24) &&& 0xFF) :: ((f.payload.length >>> 16) &&& 0xFF)
          :: ((f.payload.length >>> 8) &&& 0xFF) :: (f.payload.length &&& 0xFF)
          :: (f.payload ++ rest)) < 10 + f.payload.length) := by
        simp only [List.length_cons, List.length_append]
        omega
      have hb127 : (127 : Nat) &&& 127 = 127 := rfl
      have hm127 : (((127 : Nat) &&& 128) != 0) = false := rfl
      have hne : ¬ ((127 : Nat) = 126) := by decide
      rw [hshape, decode]
      simp only [g0, g1, c1, hb127, hm127, hne, ite_false, ite_true, eq_self_iff_true,
        byte0_fin f.fin f.opcode hop, byte0_opcode f.fin f.opcode hop, c2, hread,
        decodeRest, bne_self_eq_false, Bool.false_eq_true, hmod, c3, Nat.xor_zero,
        getD_cons10, map_range_getD_append, hlen10]

/-- A buffer shorter than the two fixed header bytes decodes to nothing. -/
lemma decode_short (l : List Nat) (h : l.length < 2) : decode l = none := by
  rw [decode, if_pos h]

/-- A small-tier buffer whose tail is shorter than the declared length
decodes to nothing. -/
lemma decode_small_insufficient (b0 n : Nat) (t : List Nat) (hn : n ≤ 125)
    (hlen : t.length < n) : decode (b0 :: n :: t) = none := by
  have g0 : (b0 :: n :: t).getD 0 0 = b0 := rfl
  have g1 : (b0 :: n :: t).getD 1 0 = n := rfl
  have hb1 : n &&& 0x7F = n := by
    rw [and_127_eq]
    omega
  have hm : n &&& 0x80 = 0 := and_128_eq_zero (by omega)
  have h126 : ¬ (n = 126) := by omega
  have h127 : ¬ (n = 127) := by omega
  have c1 : ¬ (List.length (b0 :: n :: t) < 2) := by
    simp only [List.length_cons]
    omega
  have hmod : (2 + n) % 2 ^ 64 = 2 + n := Nat.mod_eq_of_lt (by omega)
  have ct : List.length (b0 :: n :: t) < 2 + n := by
    simp only [List.length_cons]
    omega
  rw [decode]
  simp only [g0, g1, hb1, hm, h126, h127, c1, ite_false, ite_true, decodeRest,
    bne_self_eq_false, Bool.false_eq_true, hmod, ct]

/-- A 16-bit-tier buffer cut inside the extended length field decodes to
nothing. -/
lemma decode_med_short (b0 : Nat) (t : List Nat) (h : t.length < 2) :
    decode (b0 :: 126 :: t) = none := by
  have g1 : (b0 :: (126 : Nat) :: t).getD 1 0 = 126 := rfl
  have hb126 : (126 : Nat) &&& 127 = 126 := rfl
  have c1 : ¬ (List.length (b0 :: (126 : Nat) :: t) < 2) := by
    simp only [List.length_cons]
    omega
  have ct : List.length (b0 :: (126 : Nat) :: t) < 2 + 2 := by
    simp only [List.length_cons]
    omega
  rw [decode]
  simp only [g1, hb126, c1, ite_false, ite_true, eq_self_iff_true, ct]

/-- A 16-bit-tier buffer whose tail is shorter than the declared length
decodes to nothing. -/
lemma decode_med_insufficient (b0 hi lo : Nat) (t : List Nat)
    (hL : t.length < ((hi <<< 8) ||| lo)) (hsmall : ((hi <<< 8) ||| lo) + 4 < 2 ^ 64) :
    decode (b0 :: 126 :: hi :: lo :: t) = none := by
  have g1 : (b0 :: (126 : Nat) :: hi :: lo :: t).getD 1 0 = 126 := rfl
  have g2 : (b0 :: (126 : Nat) :: hi :: lo :: t).getD 2 0 = hi := rfl
  have g3 : (b0 :: (126 : Nat) :: hi :: lo :: t).getD 3 0 = lo := rfl
  have hb126 : (126 : Nat) &&& 127 = 126 := rfl
  have hm126 : (((126 : Nat) &&& 128) != 0) = false := rfl
  have c1 : ¬ (List.length (b0 :: (126 : Nat) :: hi :: lo :: t) < 2) := by
    simp only [List.length_cons]
    omega
  have c2 : ¬ (List.length (b0 :: (126 : Nat) :: hi :: lo :: t) < 2 + 2) := by
    simp only [List.length_cons]
    omega
  have hmod : (4 + ((hi <<< 8) ||| lo)) % 2 ^ 64 = 4 + ((hi <<< 8) ||| lo) :=
    Nat.mod_eq_of_lt (by omega)
  have ct : List.length (b0 :: (126 : Nat) :: hi :: lo :: t) < 4 + ((hi <<< 8) ||| lo) := by
    simp only [List.length_cons]
    omega
  rw [decode]
  simp only [g1, g2, g3, hb126, hm126, c1, c2, ite_false, ite_true, eq_self_iff_true,
    decodeRest, bne_self_eq_false, Bool.false_eq_true, hmod, ct]

/-- A 64-bit-tier buffer cut inside the extended length field decodes to
nothing. -/
lemma decode_large_short (b0 : Nat) (t : List Nat) (h : t.length < 8) :
    decode (b0 :: 127 :: t) = none := by
  have g1 : (b0 :: (127 : Nat) :: t).getD 1 0 = 127 := rfl
  have hb127 : (127 : Nat) &&& 127 = 127 := rfl
  have hne : ¬ ((127 : Nat) = 126) := by decide
  have c1 : ¬ (List.length (b0 :: (127 : Nat) :: t) < 2) := by
    simp only [List.length_cons]
    omega
  have ct : List.length (b0 :: (127 : Nat) :: t) < 2 + 8 := by
    simp only [List.length_cons]
    omega
  rw [decode]
  simp only [g1, hb127, hne, c1, ite_false, ite_true, eq_self_iff_true, ct]

/-- A 64-bit-tier buffer whose tail is shorter than the declared length
decodes to nothing. -/
lemma decode_large_insufficient (b0 d7 d6 d5 d4 d3 d2 d1 d0 : Nat) (t : List Nat)
    (hL : t.length < read64 (b0 :: 127 :: d7 :: d6 :: d5 :: d4 :: d3 :: d2 :: d1 :: d0 :: t) 2)
    (hsmall : read64 (b0 :: 127 :: d7 :: d6 :: d5 :: d4 :: d3 :: d2 :: d1 :: d0 :: t) 2 + 10
      < 2 ^ 64) :
    decode (b0 :: 127 :: d7 :: d6 :: d5 :: d4 :: d3 :: d2 :: d1 :: d0 :: t) = none := by
  have g1 : (b0 :: (127 : Nat) :: d7 :: d6 :: d5 :: d4 :: d3 :: d2 :: d1 :: d0 :: t).getD 1 0
      = 127 := rfl
  have hb127 : (127 : Nat) &&& 127 = 127 := rfl
  have hm127 : (((127 : Nat) &&& 128) != 0) = false := rfl
  have hne : ¬ ((127 : Nat) = 126) := by decide
  have c1 : ¬ (List.length (b0 :: (127 : Nat) :: d7 :: d6 :: d5 :: d4 :: d3 :: d2 :: d1
      :: d0 :: t) < 2) := by
    simp only [List.length_cons]
    omega
  have c2 : ¬ (List.length (b0 :: (127 : Nat) :: d7 :: d6 :: d5 :: d4 :: d3 :: d2 :: d1
      :: d0 :: t) < 2 + 8) := by
    simp only [List.length_cons]
    omega
  have hmod : (10 + read64 (b0 :: 127 :: d7 :: d6 :: d5 :: d4 :: d3 :: d2 :: d1 :: d0 :: t) 2)
      % 2 ^ 64
      = 10 + read64 (b0 :: 127 :: d7 :: d6 :: d5 :: d4 :: d3 :: d2 :: d1 :: d0 :: t) 2 :=
    Nat.mod_eq_of_lt (by omega)
  have ct : List.length (b0 :: (127 : Nat) :: d7 :: d6 :: d5 :: d4 :: d3 :: d2 :: d1 :: d0 :: t)
      < 10 + read64 (b0 :: 127 :: d7 :: d6 :: d5 :: d4 :: d3 :: d2 :: d1 :: d0 :: t) 2 := by
    simp only [List.length_cons]
    omega
  rw [decode]
  simp only [g1, hb127, hm127, hne, c1, c2, ite_false, ite_true, eq_self_iff_true,
    decodeRest, bne_self_eq_false, Bool.false_eq_true, hmod, ct]

/-- Peeling two explicit cells off a take. -/
lemma take_cons2 (a b : Nat) (t : List Nat) (k : Nat) :
    (a :: b :: t).take (k + 2) = a :: b :: t.take k := rfl

/-- Peeling four explicit cells off a take. -/
lemma take_cons4 (a b c d : Nat) (t : List Nat) (k : Nat) :
    (a :: b :: c :: d :: t).take (k + 4) = a :: b :: c :: d :: t.take k := rfl

/-- Peeling ten explicit cells off a take. -/
lemma take_cons10 (a b c d e g p q r s : Nat) (t : List Nat) (k : Nat) :
    (a :: b :: c :: d :: e :: g :: p :: q :: r :: s :: t).take (k + 10)
      = a :: b :: c :: d :: e :: g :: p :: q :: r :: s :: t.take k := rfl

/-- Decoding any strict byte-prefix of an encoded frame reports insufficient
data (`none`), never a partial frame. -/
theorem decode_take_eq_none (f : WsFrame) (k : Nat)
    (henc : (encode f).length < 2 ^ 64) (hk : k < (encode f).length) :
    decode ((encode f).take k) = none := by
  by_cases h125 : f.payload.length ≤ 125
  · have hshape : encode f
        = ((if f.fin then 0x80 else 0x00) ||| f.opcode)
          :: f.payload.length :: f.payload := by
      simp [encode, encodeLen, h125]
    have hlen2 : (encode f).length = 2 + f.payload.length := by
      simp [encode, encodeLen, h125]
      omega
    rw [hlen2] at hk
    rw [hshape]
    by_cases hk2 : k < 2
    · apply decode_short
      rw [List.length_take]
      omega
    · obtain ⟨k', rfl⟩ : ∃ k', k = k' + 2 := ⟨k - 2, by omega⟩
      rw [take_cons2]
      refine decode_small_insufficient _ _ _ h125 ?_
      rw [List.length_take]
      omega
  · by_cases h65535 : f.payload.length ≤ 65535
    · have hshape : encode f
          = ((if f.fin then 0x80 else 0x00) ||| f.opcode) :: (126 : Nat)
            :: ((f.payload.length >>> 8) &&& 0xFF) :: (f.payload.length &&& 0xFF)
            :: f.payload := by
        simp [encode, encodeLen, h125, h65535]
      have hlen4 : (encode f).length = 4 + f.payload.length := by
        simp [encode, encodeLen, h125, h65535]
        omega
      rw [hlen4] at hk
      rw [hshape]
      by_cases hk2 : k < 2
      · apply decode_short
        rw [List.length_take]
        omega
      · by_cases hk4 : k < 4
        · obtain ⟨k', rfl⟩ : ∃ k', k = k' + 2 := ⟨k - 2, by omega⟩
          rw [take_cons2]
          apply decode_med_short
          rw [List.length_take]
          omega
        · obtain ⟨k', rfl⟩ : ∃ k', k = k' + 4 := ⟨k - 4, by omega⟩
          rw [take_cons4]
          refine decode_med_insufficient _ _ _ _ ?_ ?_
          · rw [len16_roundtrip f.payload.length h65535, List.length_take]
            omega
          · rw [len16_roundtrip f.payload.length h65535]
            omega
    · have hshape : encode f
          = ((if f.fin then 0x80 else 0x00) ||| f.opcode) :: (127 : Nat)
            :: ((f.payload.length >>> 56) &&& 0xFF) :: ((f.payload.length >>> 48) &&& 0xFF)
            :: ((f.payload.length >>> 40) &&& 0xFF) :: ((f.payload.length >>> 32) &&& 0xFF)
            :: ((f.payload.length >>> 24) &&& 0xFF) :: ((f.payload.length >>> 16) &&& 0xFF)
            :: ((f.payload.length >>> 8) &&& 0xFF) :: (f.payload.length &&& 0xFF)
            :: f.payload := by
        simp [encode, encodeLen, h125, h65535]
      have hlen10 : (encode f).length = 10 + f.payload.length := by
        simp [encode, encodeLen, h125, h65535]
        omega
      rw [hlen10] at hk
      rw [hshape]
      by_cases hk2 : k < 2
      · apply decode_short
        rw [List.length_take]
        omega
      · by_cases hk10 : k < 10
        · obtain ⟨k', rfl⟩ : ∃ k', k = k' + 2 := ⟨k - 2, by omega⟩
          rw [take_cons2]
          apply decode_large_short
          rw [List.length_take]
          omega
        · obtain ⟨k', rfl⟩ : ∃ k', k = k' + 10 := ⟨k - 10, by omega⟩
          rw [take_cons10]
          have hread : read64 (((if f.fin then 0x80 else 0x00) ||| f.opcode) :: (127 : Nat)
              :: ((f.payload.length >>> 56) &&& 0xFF) :: ((f.payload.length >>> 48) &&& 0xFF)
              :: ((f.payload.length >>> 40) &&& 0xFF) :: ((f.payload.length >>> 32) &&& 0xFF)
              :: ((f.payload.length >>> 24) &&& 0xFF) :: ((f.payload.length >>> 16) &&& 0xFF)
              :: ((f.payload.length >>> 8) &&& 0xFF) :: (f.payload.length &&& 0xFF)
              :: (f.payload.take k')) 2 = f.payload.length := by
            rw [read64_cons _ _ _ _ _ _ _ _ _ _ _ (and_255_lt _) (and_255_lt _) (and_255_lt _)
              (and_255_lt _) (and_255_lt _) (and_255_lt _) (and_255_lt _) (and_255_lt _)]
            simp only [Nat.shiftRight_eq_div_pow, and_255_eq]
            norm_num
            omega
          refine decode_large_insufficient _ _ _ _ _ _ _ _ _ _ ?_ ?_
          · rw [hread, List.length_take]
            omega
          · rw [hread]
            omega

end WsFrame

namespace FrameQueue

/-- Pushing a sequence appends it to the pending deque and keeps the flag. -/
lemma pushAll_queue (q : FrameQueue) (fs : List WsFrame) :
    pushAll q fs = ⟨q.queue ++ fs, q.closed⟩ := by
  induction fs generalizing q with
  | nil => simp [pushAll]
  | cons f fs ih =>
    show pushAll (push q f) fs = _
    rw [ih]
    simp [push]

/-- Calling `wait_pop` on a nonempty queue pops the front, whatever the flag. -/
lemma wait_pop_cons (f : WsFrame) (l : List WsFrame) (c : Bool) :
    wait_pop ⟨f :: l, c⟩ = (some f, ⟨l, c⟩) := by
  simp [wait_pop]

/-- Calling `wait_pop` on an empty queue returns nothing and keeps the state,
whether it timed out (open) or observed the closed flag. -/
lemma wait_pop_empty (c : Bool) : wait_pop ⟨[], c⟩ = (none, ⟨[], c⟩) := by
  cases c <;> simp [wait_pop]

/-- Draining exactly the pending frames returns them in order. -/
lemma popN_full (l : List WsFrame) (c : Bool) :
    popN ⟨l, c⟩ l.length = (l.map some, ⟨[], c⟩) := by
  induction l with
  | nil => rfl
  | cons f rest ih =>
    show popN ⟨f :: rest, c⟩ (rest.length + 1) = _
    simp [popN, wait_pop_cons, ih]

/-- Popping from an empty queue yields nothing, any number of times. -/
lemma popN_empty (c : Bool) (n : Nat) :
    popN ⟨[], c⟩ n = (List.replicate n none, ⟨[], c⟩) := by
  induction n with
  | zero => rfl
  | succ n ih => simp [popN, wait_pop_empty, ih, List.replicate_succ]

/-- Splitting an iterated pop. -/
lemma popN_add (q : FrameQueue) (n m : Nat) :
    popN q (n + m) = ((popN q n).1 ++ (popN (popN q n).2 m).1, (popN (popN q n).2 m).2) := by
  induction n generalizing q with
  | zero => simp [popN]
  | succ n ih =>
    rw [Nat.succ_add]
    simp [popN, ih]

end FrameQueue

/-- One scripted round, characterized by `goodResp`: a good response sends
the PING and recurses with the updated result and pong counter; anything
else sends the PING, sets failure, and stops. -/
lemma scriptedRun_step (rs : List (Option WsFrame)) (r i result pongs : Nat) :
    scriptedRun rs (r + 1) i result pongs
      = if goodResp rs i then
          (pingFrame i ::
            (scriptedRun rs r (i + 1) (if i = 3 - 1 then 0 else result) (pongs + 1)).1,
           (scriptedRun rs r (i + 1) (if i = 3 - 1 then 0 else result) (pongs + 1)).2)
        else ([pingFrame i], 1, pongs) := by
  rcases h : rs.getD i none with _ | fr <;>
    simp only [List.getD_eq_getElem?_getD] at h
  · simp [scriptedRun, goodResp, h]
  · by_cases ho : fr.opcode = 0xA
    · by_cases hp : fr.payload = pingTag i
      · simp [scriptedRun, goodResp, h, ho, hp]
      · simp [scriptedRun, goodResp, h, ho, hp]
    · simp [scriptedRun, goodResp, h, ho]

/-- Quantifying over the three scripted rounds is a finite conjunction. -/
lemma forall_lt_three {P : Nat → Prop} :
    (∀ i < 3, P i) ↔ P 0 ∧ P 1 ∧ P 2 := by
  constructor
  · intro h
    exact ⟨h 0 (by omega), h 1 (by omega), h 2 (by omega)⟩
  · rintro ⟨a, b, c⟩ i hi
    interval_cases i <;> assumption

/-- The interactive loop implements the spec-side echo/pong description. -/
lemma interactiveLoop_eq_spec (polls : List (Option WsFrame)) :
    interactiveLoop polls = (specEchoWrites polls, specPongCount polls) := by
  induction polls with
  | nil => rfl
  | cons p rest ih =>
    rcases p with _ | fr
    · simpa [interactiveLoop, specEchoWrites, specPongCount] using ih
    · by_cases h12 : fr.opcode = 0x1 ∨ fr.opcode = 0x2
      · have h8 : ¬ (fr.opcode = 0x8) := by rcases h12 with h | h <;> omega
        have hA : ¬ (fr.opcode = 0xA) := by rcases h12 with h | h <;> omega
        simp [interactiveLoop, specEchoWrites, specPongCount, h12, h8, hA, ih]
      · by_cases hA : fr.opcode = 0xA
        · have h8 : ¬ (fr.opcode = 0x8) := by omega
          simp [interactiveLoop, specEchoWrites, specPongCount, h12, hA, h8, ih]
        · by_cases h8 : fr.opcode = 0x8
          · simp [interactiveLoop, specEchoWrites, specPongCount, h12, hA, h8]
          · simp [interactiveLoop, specEchoWrites, specPongCount, h12, hA, h8, ih]

/-- No echo write carries the CLOSE opcode in its header nibble. -/
lemma specEchoWrites_countP (polls : List (Option WsFrame)) :
    (specEchoWrites polls).countP (fun w => w.getD 0 0 &&& 0x0F == 0x8) = 0 := by
  induction polls with
  | nil => rfl
  | cons p rest ih =>
    rcases p with _ | fr
    · rw [specEchoWrites]
      exact ih
    · by_cases h8 : fr.opcode = 0x8
      · rw [specEchoWrites, if_pos h8]
        rfl
      · by_cases h12 : fr.opcode = 0x1 ∨ fr.opcode = 0x2
        · have hop : fr.opcode < 16 := by rcases h12 with h | h <;> omega
          have hhead : (fr.encode).getD 0 0
              = ((if fr.fin then 0x80 else 0x00) ||| fr.opcode) := rfl
          have hnib := WsFrame.byte0_opcode fr.fin fr.opcode hop
          rw [specEchoWrites, if_neg h8, if_pos h12, List.countP_cons, ih]
          have hb : (fr.encode.getD 0 0 &&& 0x0F == 0x8) = false := by
            rw [hhead, hnib]
            simp [h8]
          rw [hb]
          simp
        · rw [specEchoWrites, if_neg h8, if_neg h12]
          exact ih

/-- C1: codec round-trip — for every frame whose opcode is any 4-bit value
and whose payload has any (machine-representable) length, decoding the
bytes produced by `encode` yields the original `fin`, the original opcode
preserved numerically, and the original payload byte-for-byte, with a
consumed-byte count equal to the length of the encoded buffer. -/
theorem c1_roundtrip (f : WsFrame) (hop : f.opcode < 16)
    (henc : (WsFrame.encode f).length < 2 ^ 64) :
    WsFrame.decode (WsFrame.encode f) = some (f, (WsFrame.encode f).length) := by
  have h := WsFrame.decode_encode_append f [] hop henc
  simpa using h

/-- Witness for C1 at a concrete PING frame. -/
theorem c1_roundtrip_witness :
    WsFrame.decode (WsFrame.encode ⟨true, 9, [1, 2, 3]⟩)
      = some (⟨true, 9, [1, 2, 3]⟩, (WsFrame.encode ⟨true, 9, [1, 2, 3]⟩).length) :=
  c1_roundtrip ⟨true, 9, [1, 2, 3]⟩ (by decide) (by decide)

/-- C2 is violated by the code: on `overflowInput` the comparison
`size < offset + length` wraps around in `uint64_t` arithmetic
(`10 + (2 ^ 64 - 1) ≡ 9`), so decode does NOT return the insufficient-data
result: it proceeds to build a payload of the declared length `2 ^ 64 - 1`,
far beyond the 10 available bytes, and reports a consumed count of 9. -/
theorem c2_overflow_wraparound :
    ∃ r : WsFrame × Nat, WsFrame.decode overflowInput = some r
      ∧ r.1.payload.length = 2 ^ 64 - 1
      ∧ r.2 = 9
      ∧ overflowInput.length = 10 := by
  refine ⟨_, rfl, ?_, by decide, by decide⟩
  simp
  decide

/-- C3 counterexample: a single delivery holding two concatenated valid
encoded frames results in only ONE frame being pushed to the queue — the
claim requires both. -/
theorem c3_two_frames_one_push :
    (on_binary_message ⟨[], false⟩
        (WsFrame.encode ⟨true, 1, [104]⟩ ++ WsFrame.encode ⟨true, 2, [105]⟩)).queue
      = [⟨true, 1, [104]⟩]
    ∧ (on_binary_message ⟨[], false⟩
        (WsFrame.encode ⟨true, 1, [104]⟩ ++ WsFrame.encode ⟨true, 2, [105]⟩)).queue.length
      ≠ 2 := by
  decide

/-- C3 amended: the `binary_message` handler calls decode exactly once per
delivery and pushes at most the FIRST frame; the rest of the buffer is
discarded, not decoded in a loop. -/
theorem c3_handler_single_decode (q : FrameQueue) (f1 : WsFrame) (tail : List Nat)
    (hop : f1.opcode < 16) (henc : (WsFrame.encode f1).length < 2 ^ 64) :
    on_binary_message q (WsFrame.encode f1 ++ tail) = q.push f1 := by
  simp only [on_binary_message, WsFrame.decode_encode_append f1 tail hop henc]

/-- Witness for the amended C3 at a concrete two-frame delivery. -/
theorem c3_handler_single_decode_witness :
    on_binary_message ⟨[], false⟩
        (WsFrame.encode ⟨true, 1, [104]⟩ ++ WsFrame.encode ⟨true, 2, [105]⟩)
      = FrameQueue.push ⟨[], false⟩ ⟨true, 1, [104]⟩ :=
  c3_handler_single_decode ⟨[], false⟩ ⟨true, 1, [104]⟩ (WsFrame.encode ⟨true, 2, [105]⟩)
    (by decide) (by decide)

/-- C4: feeding decode any strict byte-prefix of a valid encoded frame
returns the insufficient-data result (`none`) — never a frame with a
truncated payload; the source has no separate malformed result, `none` is
exactly its insufficient outcome. -/
theorem c4_truncated_decode (f : WsFrame) (k : Nat)
    (henc : (WsFrame.encode f).length < 2 ^ 64) (hk : k < (WsFrame.encode f).length) :
    WsFrame.decode ((WsFrame.encode f).take k) = none :=
  WsFrame.decode_take_eq_none f k henc hk

/-- Witness for C4: a 3-byte prefix of a 5-byte encoded frame. -/
theorem c4_truncated_decode_witness :
    WsFrame.decode ((WsFrame.encode ⟨true, 2, [7, 8, 9]⟩).take 3) = none :=
  c4_truncated_decode ⟨true, 2, [7, 8, 9]⟩ 3 (by decide) (by decide)

/-- C5: frames pushed in order by a single producer are returned by
successive `wait_pop` calls in exactly that order, and every `wait_pop`
call removes at most one frame from the queue. -/
theorem c5_queue_fifo (fs : List WsFrame) :
    (FrameQueue.popN (FrameQueue.pushAll ⟨[], false⟩ fs) fs.length).1 = fs.map some
    ∧ ∀ q : FrameQueue, q.queue.length ≤ (FrameQueue.wait_pop q).2.queue.length + 1 := by
  constructor
  · have hp : FrameQueue.pushAll ⟨[], false⟩ fs = ⟨fs, false⟩ := by
      simpa using FrameQueue.pushAll_queue ⟨[], false⟩ fs
    rw [hp, FrameQueue.popN_full]
  · intro q
    rcases q with ⟨l, c⟩
    rcases l with _ | ⟨f, t⟩
    · simp [FrameQueue.wait_pop_empty]
    · simp [FrameQueue.wait_pop_cons]

/-- C8: two valid encoded frames concatenated decode sequentially — the
first decode returns the first frame and consumes its encoding, the
remainder is exactly the second encoding, which decodes to the second
frame, and the two consumed counts sum to the concatenation length. -/
theorem c8_concat (f1 f2 : WsFrame) (h1 : f1.opcode < 16) (h2 : f2.opcode < 16)
    (hl : (WsFrame.encode f1).length + (WsFrame.encode f2).length < 2 ^ 64) :
    WsFrame.decode (WsFrame.encode f1 ++ WsFrame.encode f2)
      = some (f1, (WsFrame.encode f1).length)
    ∧ (WsFrame.encode f1 ++ WsFrame.encode f2).drop (WsFrame.encode f1).length
      = WsFrame.encode f2
    ∧ WsFrame.decode (WsFrame.encode f2) = some (f2, (WsFrame.encode f2).length)
    ∧ (WsFrame.encode f1).length + (WsFrame.encode f2).length
      = (WsFrame.encode f1 ++ WsFrame.encode f2).length := by
  refine ⟨WsFrame.decode_encode_append f1 _ h1 (by omega), List.drop_left _ _, ?_, ?_⟩
  · have h := WsFrame.decode_encode_append f2 [] h2 (by omega)
    simpa using h
  · simp [List.length_append]

/-- Witness for C8 at two concrete one-byte-payload frames. -/
theorem c8_concat_witness :
    WsFrame.decode (WsFrame.encode ⟨true, 1, [65]⟩ ++ WsFrame.encode ⟨true, 2, [66]⟩)
      = some (⟨true, 1, [65]⟩, (WsFrame.encode ⟨true, 1, [65]⟩).length)
    ∧ (WsFrame.encode ⟨true, 1, [65]⟩ ++ WsFrame.encode ⟨true, 2, [66]⟩).drop
        (WsFrame.encode ⟨true, 1, [65]⟩).length = WsFrame.encode ⟨true, 2, [66]⟩
    ∧ WsFrame.decode (WsFrame.encode ⟨true, 2, [66]⟩)
      = some (⟨true, 2, [66]⟩, (WsFrame.encode ⟨true, 2, [66]⟩).length)
    ∧ (WsFrame.encode ⟨true, 1, [65]⟩).length + (WsFrame.encode ⟨true, 2, [66]⟩).length
      = (WsFrame.encode ⟨true, 1, [65]⟩ ++ WsFrame.encode ⟨true, 2, [66]⟩).length :=
  c8_concat ⟨true, 1, [65]⟩ ⟨true, 2, [66]⟩ (by decide) (by decide) (by decide)

/-- C9: `reset` leaves the queue exactly in the freshly-constructed state
(empty pending sequence, cleared closed flag), is idempotent, and no frame
pending before the reset is ever returned by any number of subsequent
`wait_pop` calls. -/
theorem c9_queue_reset (q : FrameQueue) :
    FrameQueue.reset q = ⟨[], false⟩
    ∧ FrameQueue.reset (FrameQueue.reset q) = FrameQueue.reset q
    ∧ ∀ n, (FrameQueue.popN (FrameQueue.reset q) n).1 = List.replicate n none := by
  refine ⟨rfl, rfl, ?_⟩
  intro n
  rw [show FrameQueue.reset q = ⟨[], false⟩ from rfl, FrameQueue.popN_empty]

/-- C10: `close` drains, it does not drop — every frame pushed before (or
after) the close is still returned, one per call, in FIFO order, and only
once the pending sequence is empty does `wait_pop` return nothing. -/
theorem c10_close_drains (fs gs : List WsFrame) :
    (FrameQueue.popN
        (FrameQueue.pushAll (FrameQueue.close (FrameQueue.pushAll ⟨[], false⟩ fs)) gs)
        (fs ++ gs).length).1 = (fs ++ gs).map some
    ∧ (FrameQueue.popN (FrameQueue.close (FrameQueue.pushAll ⟨[], false⟩ fs))
        (fs.length + 1)).1 = fs.map some ++ [none] := by
  have hp : FrameQueue.pushAll ⟨[], false⟩ fs = ⟨fs, false⟩ := by
    simpa using FrameQueue.pushAll_queue ⟨[], false⟩ fs
  have hc : FrameQueue.close (⟨fs, false⟩ : FrameQueue) = ⟨fs, true⟩ := rfl
  have hp2 : FrameQueue.pushAll ⟨fs, true⟩ gs = ⟨fs ++ gs, true⟩ :=
    FrameQueue.pushAll_queue ⟨fs, true⟩ gs
  constructor
  · rw [hp, hc, hp2, FrameQueue.popN_full]
  · rw [hp, hc, FrameQueue.popN_add, FrameQueue.popN_full]
    simp [FrameQueue.popN_empty]

/-- C6: scripted verification mode — each round sends PING `"ping-i"`; a
missing, non-PONG, or mismatching response makes the outcome FAILURE (1)
and stops the rounds; the outcome is SUCCESS (0) iff all three rounds get
the matching PONG; and, whatever the outcome, exactly one CLOSE frame
(payload `{0x03, 0xE8}`) is written, last, before the loop terminates.
`firstBad` is the index of the first failing round (3 when none fails). -/
theorem c6_scripted_session (responses : List (Option WsFrame)) :
    scriptedSession responses
      = ((List.range (min 3 (firstBad responses + 1))).map pingFrame ++ [closeFrame],
         (if firstBad responses < 3 then 1 else 0), min 3 (firstBad responses))
    ∧ (scriptedSession responses).1.countP (fun fr => fr.opcode == 0x8) = 1
    ∧ ((scriptedSession responses).2.1 = 0 ↔ ∀ i < 3, goodResp responses i = true) := by
  have h3 : scriptedRun responses 3 0 1 0 = scriptedRun responses (2 + 1) 0 1 0 := rfl
  have hr1 : List.range 1 = [0] := rfl
  have hr2 : List.range 2 = [0, 1] := rfl
  have hr3 : List.range 3 = [0, 1, 2] := rfl
  cases hg0 : goodResp responses 0 with
  | false =>
    have hrun : scriptedRun responses 3 0 1 0 = ([pingFrame 0], 1, 0) := by
      rw [h3, scriptedRun_step, hg0]
      simp
    have hfb : firstBad responses = 0 := by
      rw [firstBad, hg0]
      simp
    refine ⟨?_, ?_, ?_⟩
    · simp [scriptedSession, hrun, hfb, hr1]
    · simp [scriptedSession, hrun, pingFrame, closeFrame, List.countP_cons]
    · rw [forall_lt_three]
      simp [scriptedSession, hrun, hg0]
  | true =>
    have hrun0 : scriptedRun responses 3 0 1 0
        = (pingFrame 0 :: (scriptedRun responses 2 1 1 1).1,
           (scriptedRun responses 2 1 1 1).2) := by
      rw [h3, scriptedRun_step, hg0]
      norm_num
    have h2 : scriptedRun responses 2 1 1 1 = scriptedRun responses (1 + 1) 1 1 1 := rfl
    cases hg1 : goodResp responses 1 with
    | false =>
      have hrun : scriptedRun responses 3 0 1 0 = ([pingFrame 0, pingFrame 1], 1, 1) := by
        rw [hrun0, h2, scriptedRun_step, hg1]
        simp
      have hfb : firstBad responses = 1 := by
        rw [firstBad, hg0, hg1]
        simp
      refine ⟨?_, ?_, ?_⟩
      · simp [scriptedSession, hrun, hfb, hr2]
      · simp [scriptedSession, hrun, pingFrame, closeFrame, List.countP_cons]
      · rw [forall_lt_three]
        simp [scriptedSession, hrun, hg1]
    | true =>
      have hrun1 : scriptedRun responses 2 1 1 1
          = (pingFrame 1 :: (scriptedRun responses 1 2 1 2).1,
             (scriptedRun responses 1 2 1 2).2) := by
        rw [h2, scriptedRun_step, hg1]
        norm_num
      have h1 : scriptedRun responses 1 2 1 2 = scriptedRun responses (0 + 1) 2 1 2 := rfl
      cases hg2 : goodResp responses 2 with
      | false =>
        have hrun : scriptedRun responses 3 0 1 0
            = ([pingFrame 0, pingFrame 1, pingFrame 2], 1, 2) := by
          rw [hrun0, hrun1, h1, scriptedRun_step, hg2]
          simp
        have hfb : firstBad responses = 2 := by
          rw [firstBad, hg0, hg1, hg2]
          simp
        refine ⟨?_, ?_, ?_⟩
        · simp [scriptedSession, hrun, hfb, hr3]
        · simp [scriptedSession, hrun, pingFrame, closeFrame, List.countP_cons]
        · rw [forall_lt_three]
          simp [scriptedSession, hrun, hg2]
      | true =>
        have hrun2 : scriptedRun responses 1 2 1 2
            = (pingFrame 2 :: (scriptedRun responses 0 3 0 3).1,
               (scriptedRun responses 0 3 0 3).2) := by
          rw [h1, scriptedRun_step, hg2]
          norm_num
        have hrun : scriptedRun responses 3 0 1 0
            = ([pingFrame 0, pingFrame 1, pingFrame 2], 0, 3) := by
          rw [hrun0, hrun1, hrun2]
          simp [scriptedRun]
        have hfb : firstBad responses = 3 := by
          rw [firstBad, hg0, hg1, hg2]
          simp
        refine ⟨?_, ?_, ?_⟩
        · simp [scriptedSession, hrun, hfb, hr3]
        · simp [scriptedSession, hrun, pingFrame, closeFrame, List.countP_cons]
        · rw [forall_lt_three]
          simp [scriptedSession, hrun, hg0, hg1, hg2]

/-- C7: interactive echo mode — the session's writes are exactly the
re-encodings of the TEXT/BINARY frames popped before the first CLOSE
followed by one final CLOSE write; the pong counter counts exactly the
PONG frames popped before the first CLOSE (no write for them); the session
ends marked disconnected; and exactly one written buffer carries the CLOSE
opcode. -/
theorem c7_interactive_echo (polls : List (Option WsFrame)) :
    (interactiveSession polls).1 = specEchoWrites polls ++ [WsFrame.encode closeFrame]
    ∧ (interactiveSession polls).2.1 = specPongCount polls
    ∧ (interactiveSession polls).2.2 = false
    ∧ (interactiveSession polls).1.countP (fun w => w.getD 0 0 &&& 0x0F == 0x8) = 1 := by
  have hl := interactiveLoop_eq_spec polls
  refine ⟨by simp [interactiveSession, hl], by simp [interactiveSession, hl], rfl, ?_⟩
  have h0 := specEchoWrites_countP polls
  have hcb : ((WsFrame.encode closeFrame).getD 0 0 &&& 0x0F == 0x8) = true := by decide
  simp only [interactiveSession, hl, List.countP_append, List.countP_cons, List.countP_nil]
  rw [h0, hcb]
  simp

